import Mathlib

/-
Verification of the KJV Gutenberg parser (src/src/main.rs).

The Rust source is shallowly embedded below.  Strings are modelled as Lean
`String` (lists of characters); the character-level operations mirror the
Rust standard-library functions used by the source (`str::trim`,
`str::split_whitespace`, `str::contains`, `str::starts_with`,
`str::split_once`, `u32::from_str`).  Whitespace is the ASCII whitespace
set, which is the character class exercised by this input format.
-/

set_option maxRecDepth 10000

namespace KJV

/-! ## Character-list string primitives (models of the Rust std functions) -/

/-- Model of `str::trim` (leading whitespace removal half). -/
def dropLeadingWs (l : List Char) : List Char :=
  l.dropWhile (fun c => c.isWhitespace)

/-- Model of `str::trim` on a character list: strip whitespace from both ends. -/
def trimCL (l : List Char) : List Char :=
  (dropLeadingWs (dropLeadingWs l).reverse).reverse

/-- Model of `str::trim`. -/
def trimS (s : String) : String := ⟨trimCL s.data⟩

/-- Prefix test on character lists (model of `str::starts_with`). -/
def isPrefixCL : List Char → List Char → Bool
  | [], _ => true
  | _ :: _, [] => false
  | a :: as, b :: bs => a == b && isPrefixCL as bs

/-- Substring containment on character lists (model of `str::contains`). -/
def containsSubCL (pat : List Char) : List Char → Bool
  | [] => isPrefixCL pat []
  | c :: r => isPrefixCL pat (c :: r) || containsSubCL pat r

/-- Model of `str::starts_with`. -/
def strStarts (s pat : String) : Bool := isPrefixCL pat.data s.data

/-- Model of `str::contains` (substring search). -/
def containsSubS (s pat : String) : Bool := containsSubCL pat.data s.data

/-- Split on the first colon (model of `str::split_once(':')`). -/
def splitOnceCL : List Char → Option (List Char × List Char)
  | [] => none
  | c :: r =>
    if c = ':' then some ([], r)
    else
      match splitOnceCL r with
      | some (a, b) => some (c :: a, b)
      | none => none

/-- Model of `str::split_once(':')` on strings. -/
def splitOnceColon (w : String) : Option (String × String) :=
  match splitOnceCL w.data with
  | some (a, b) => some (⟨a⟩, ⟨b⟩)
  | none => none

/-- Whitespace tokenisation worker: `cur` holds the current token reversed. -/
def splitWsGo : List Char → List Char → List (List Char)
  | cur, [] => if cur.isEmpty then [] else [cur.reverse]
  | cur, c :: r =>
    if c.isWhitespace then
      if cur.isEmpty then splitWsGo [] r else cur.reverse :: splitWsGo [] r
    else splitWsGo (c :: cur) r

/-- Model of `str::split_whitespace` (empty tokens are skipped). -/
def splitWsS (s : String) : List String :=
  (splitWsGo [] s.data).map (fun l => ⟨l⟩)

/-- Model of `[&str]::join(" ")`. -/
def joinWords (ws : List String) : String :=
  ⟨List.intercalate [' '] (ws.map String.data)⟩

/-- Numeric value of a digit list (base 10). -/
def digitsToNat (l : List Char) : Nat :=
  l.foldl (fun n c => n * 10 + (c.toNat - 48)) 0

/-- Nonempty all-decimal-digit list whose value fits in a `u32`. -/
def decDigitsOk (l : List Char) : Bool :=
  !l.isEmpty && l.all (fun c => c.isDigit) && decide (digitsToNat l < 4294967296)

/-- Model of `u32::from_str`: optional leading plus sign, then decimal digits,
value bounded by `u32::MAX`.  A minus sign is rejected for unsigned types. -/
def parseU32okCL : List Char → Bool
  | '+' :: r => decDigitsOk r
  | l => decDigitsOk l

/-- Model of `s.parse::<u32>().is_ok()`. -/
def parseU32okS (x : String) : Bool := parseU32okCL x.data

/-- Split a text into lines at newline characters (model of `str::lines`,
up to a trailing empty line that the parser skips anyway). -/
def splitLinesGo : List Char → List Char → List (List Char)
  | cur, [] => [cur.reverse]
  | cur, c :: r =>
    if c = '\n' then cur.reverse :: splitLinesGo [] r else splitLinesGo (c :: cur) r

/-- The input text as a list of lines. -/
def splitLines (txt : String) : List String :=
  (splitLinesGo [] txt.data).map (fun l => ⟨l⟩)

/-- Join lines with newlines (used to build concrete inputs in theorems). -/
def joinLines (ls : List String) : String :=
  ⟨List.intercalate ['\n'] (ls.map String.data)⟩

/-! ## Data model (structs `Verse`, `Chapter`, `Book`, `Bible` from main.rs) -/

structure Verse where
  number : String
  text : String
deriving DecidableEq

structure Chapter where
  number : String
  verses : List Verse
deriving DecidableEq

structure Book where
  name : String
  chapters : List Chapter
deriving DecidableEq

structure Bible where
  ot_contents : List String
  ot : List Book
  nt_contents : List String
  nt : List Book
deriving DecidableEq

/-! ## Line classifier (`is_book_line` from main.rs) -/

/-- The one-word Old Testament book titles matched exactly in `is_book_line`. -/
def bareOT : List String :=
  ["Hosea", "Joel", "Amos", "Obadiah", "Jonah", "Micah", "Nahum",
   "Habakkuk", "Zephaniah", "Haggai", "Zechariah", "Malachi", "Ezra",
   "Ecclesiastes"]

/-- The `ot_books` prefix table from `is_book_line`. -/
def otBooks : List (String × String) :=
  [("The First Book of Moses:", "Genesis"),
   ("The Second Book of Moses:", "Exodus"),
   ("The Third Book of Moses:", "Leviticus"),
   ("The Fourth Book of Moses:", "Numbers"),
   ("The Fifth Book of Moses:", "Deuteronomy"),
   ("The Book of Joshua", "Joshua"),
   ("The Book of Judges", "Judges"),
   ("The Book of Ruth", "Ruth"),
   ("The First Book of the Chronicles", "1 Chronicles"),
   ("The Second Book of the Chronicles", "2 Chronicles"),
   ("The Book of Nehemiah", "Nehemiah"),
   ("The Book of Esther", "Esther"),
   ("The Book of Job", "Job"),
   ("The Book of Psalms", "Psalms"),
   ("The Proverbs", "Proverbs"),
   ("The Song of Solomon", "Song of Solomon"),
   ("The Book of the Prophet Isaiah", "Isaiah"),
   ("The Book of the Prophet Jeremiah", "Jeremiah"),
   ("The Lamentations of Jeremiah", "Lamentations"),
   ("The Book of the Prophet Ezekiel", "Ezekiel"),
   ("The Book of Daniel", "Daniel")]

/-- The `nt_books` prefix table from `is_book_line`. -/
def ntBooks : List (String × String) :=
  [("The Gospel According to Saint Matthew", "Matthew"),
   ("The Gospel According to Saint Mark", "Mark"),
   ("The Gospel According to Saint Luke", "Luke"),
   ("The Gospel According to Saint John", "John"),
   ("The Acts of the Apostles", "Acts"),
   ("The Epistle of Paul the Apostle to the Romans", "Romans"),
   ("The First Epistle of Paul the Apostle to the Corinthians", "1 Corinthians"),
   ("The Second Epistle of Paul the Apostle to the Corinthians", "2 Corinthians"),
   ("The Epistle of Paul the Apostle to the Galatians", "Galatians"),
   ("The Epistle of Paul the Apostle to the Ephesians", "Ephesians"),
   ("The Epistle of Paul the Apostle to the Philippians", "Philippians"),
   ("The Epistle of Paul the Apostle to the Colossians", "Colossians"),
   ("The First Epistle of Paul the Apostle to the Thessalonians", "1 Thessalonians"),
   ("The Second Epistle of Paul the Apostle to the Thessalonians", "2 Thessalonians"),
   ("The First Epistle of Paul the Apostle to Timothy", "1 Timothy"),
   ("The Second Epistle of Paul the Apostle to Timothy", "2 Timothy"),
   ("The Epistle of Paul the Apostle to Titus", "Titus"),
   ("The Epistle of Paul the Apostle to Philemon", "Philemon"),
   ("The Epistle of Paul the Apostle to the Hebrews", "Hebrews"),
   ("The General Epistle of James", "James"),
   ("The First Epistle General of Peter", "1 Peter"),
   ("The Second General Epistle of Peter", "2 Peter"),
   ("The First Epistle General of John", "1 John"),
   ("The Second Epistle General of John", "2 John"),
   ("The Third Epistle General of John", "3 John"),
   ("The General Epistle of Jude", "Jude"),
   ("The Revelation of Saint John the Divine", "Revelation")]

/-- Ordered starts-with lookup over a (pattern, canonical-name) table. -/
def lookupPre (tbl : List (String × String)) (line : String) : Option String :=
  match tbl with
  | [] => none
  | (p, c) :: rest => if strStarts line p then some c else lookupPre rest line

/-- `is_book_line` from main.rs: classify a line as a book-title header,
returning the canonical name and an is-Old-Testament flag. -/
def is_book_line (line0 : String) : Option (String × Bool) :=
  let line := trimS line0
  if containsSubS line "Otherwise Called" = true ∨ line = "" then none
  else if line = "The First Book of Samuel" then some ("1 Samuel", true)
  else if line = "The Second Book of Samuel" then some ("2 Samuel", true)
  else if line ∈ bareOT then some (line, true)
  else
    match lookupPre otBooks line with
    | some c => some (c, true)
    | none =>
      if strStarts line "The First Book of the Kings" then some ("1 Kings", true)
      else if strStarts line "The Second Book of the Kings" then some ("2 Kings", true)
      else
        match lookupPre ntBooks line with
        | some c => some (c, false)
        | none => none

/-! ## Document assembler (`parse_gutenberg` from main.rs)

The Rust loop's mutable locals become the fields of `ParseState`; one loop
iteration becomes `step`; the trailing flush becomes `finish`.  The
`HashSet` `found_books` is used by the source only for membership tests
feeding diagnostics, so it is modelled as a list with insert-if-absent. -/

structure ParseState where
  bible : Bible
  current_book : Option Book
  is_ot : Bool
  current_chapter : Option Chapter
  current_verse : Option Verse
  in_bible : Bool
  in_content : Bool
  in_toc : Bool
  toc_is_ot : Bool
  toc_complete : Bool
  found_books : List String
  last_line_was_book : Bool
deriving DecidableEq

def initState : ParseState :=
  { bible := { ot_contents := [], ot := [], nt_contents := [], nt := [] },
    current_book := none, is_ot := true,
    current_chapter := none, current_verse := none,
    in_bible := false, in_content := false, in_toc := false,
    toc_is_ot := true, toc_complete := false,
    found_books := [], last_line_was_book := false }

def startMarker : String := "*** START OF THE PROJECT GUTENBERG"
def otMarker : String := "The Old Testament"
def ntMarker : String := "The New Testament"

/-- Push a taken verse into the open chapter, if a chapter is open
(`current_verse.take()` followed by the conditional push). -/
def sealVerseIntoChapter : Option Verse → Option Chapter → Option Chapter
  | some v, some c => some { c with verses := c.verses ++ [v] }
  | _, co => co

/-- Push a taken chapter into the open book, if a book is open. -/
def sealChapterIntoBook : Option Chapter → Option Book → Option Book
  | some c, some b => some { b with chapters := b.chapters ++ [c] }
  | _, bo => bo

/-- Push a taken book into the testament collection selected by `is_ot`. -/
def pushBook : Option Book → Bool → List Book → List Book → List Book × List Book
  | some b, true, ot, nt => (ot ++ [b], nt)
  | some b, false, ot, nt => (ot, nt ++ [b])
  | none, _, ot, nt => (ot, nt)

/-- Does the open book's name contain "Samuel"
(`current_book.as_ref().is_some_and(|b| b.name.contains("Samuel"))`)? -/
def bookNameHasSamuel : Option Book → Bool
  | some b => containsSubS b.name "Samuel"
  | none => false

/-- The flushed testament collections on a header acceptance (and at end
of input): seal verse into chapter, chapter into book, book into the
testament selected by the current `is_ot` flag. -/
def flushAll (s : ParseState) : List Book × List Book :=
  pushBook
    (sealChapterIntoBook (sealVerseIntoChapter s.current_verse s.current_chapter)
      s.current_book)
    s.is_ot s.bible.ot s.bible.nt

/-- Accepting a header: record in `found_books`, flush verse, chapter and
book, then open a fresh empty book with the candidate's name. -/
def acceptHeader (s : ParseState) (nm : String) (isOT : Bool) : ParseState :=
  { s with bible := { s.bible with ot := (flushAll s).1, nt := (flushAll s).2 },
           current_book := some { name := nm, chapters := [] },
           is_ot := isOT,
           current_chapter := none, current_verse := none,
           found_books := if nm ∈ s.found_books then s.found_books else nm :: s.found_books,
           last_line_was_book := true }

/-- The classified-header transition, including Suppression Rules A and B. -/
def stepHeader (s : ParseState) (nm : String) (isOT : Bool) : ParseState :=
  if s.last_line_was_book = true ∧ (nm = "1 Kings" ∨ nm = "2 Kings") then s
  else if (nm = "1 Kings" ∨ nm = "2 Kings") ∧ bookNameHasSamuel s.current_book = true
          ∧ s.current_verse = none then s
  else acceptHeader s nm isOT

/-- Scan tokens left to right for the first `<decimal>:<decimal>` token,
returning its index and the two sides of its first colon. -/
def findRef : Nat → List String → Option (Nat × String × String)
  | _, [] => none
  | i, w :: ws =>
    match splitOnceColon w with
    | some (a, b) =>
      if parseU32okS a = true ∧ parseU32okS b = true then some (i, a, b)
      else findRef (i + 1) ws
    | none => findRef (i + 1) ws

/-- The verse being sealed, after appending the space-joined tokens before
index `i` of this line (single separating space before them when the text
is nonempty, none when `i = 0`). -/
def sealedVerse (v : Verse) (words : List String) (i : Nat) : Verse :=
  if 0 < i then
    { v with text := if v.text = "" then joinWords (words.take i)
                     else v.text ++ " " ++ joinWords (words.take i) }
  else v

/-- Seal the in-progress verse, first appending the space-joined tokens
before index `i` of this line. -/
def sealPrev (cv : Option Verse) (words : List String) (i : Nat)
    (cc : Option Chapter) : Option Chapter :=
  match cv with
  | some v => sealVerseIntoChapter (some (sealedVerse v words i)) cc
  | none => cc

/-- Is a new chapter needed
(`current_chapter.as_ref().is_none_or(|c| c.number != chapter_num)`)? -/
def chMismatch : Option Chapter → String → Bool
  | none, _ => true
  | some c, n => c.number != n

/-- The verse-reference transition at token index `i` with sides `chN:vN`.
The opened verse's number is the raw decimal string after the colon; its
initial text is the space-joined tokens after index `i`. -/
def applyRef (s : ParseState) (words : List String) (i : Nat)
    (chN vN : String) : ParseState :=
  if chMismatch (sealPrev s.current_verse words i s.current_chapter) chN = true then
    { s with current_book :=
               sealChapterIntoBook (sealPrev s.current_verse words i s.current_chapter)
                 s.current_book,
             current_chapter := some { number := chN, verses := [] },
             current_verse := some { number := vN, text := joinWords (words.drop (i + 1)) } }
  else
    { s with current_chapter := sealPrev s.current_verse words i s.current_chapter,
             current_verse := some { number := vN, text := joinWords (words.drop (i + 1)) } }

/-- Continuation text: append the whole trimmed line onto the open verse
with a single separating space. -/
def appendContinuation (s : ParseState) (line : String) : ParseState :=
  match s.current_verse with
  | some v =>
    let v2 : Verse :=
      { v with text := if v.text = "" then line else v.text ++ " " ++ line }
    { s with current_verse := some v2 }
  | none => s

/-- A non-header body line: the flag is cleared, then either the first
verse-reference token fires a transition or the line is continuation text. -/
def stepBody (s : ParseState) (line : String) : ParseState :=
  match findRef 0 (splitWsS line) with
  | some (i, chN, vN) =>
    applyRef { s with last_line_was_book := false } (splitWsS line) i chN vN
  | none => appendContinuation { s with last_line_was_book := false } line

/-- Body-section processing of one line. -/
def stepContent (s : ParseState) (line : String) : ParseState :=
  match is_book_line line with
  | some (nm, isOT) => stepHeader s nm isOT
  | none => stepBody s line

/-- Record a classified TOC entry into the testament selected by
`toc_is_ot`. -/
def tocPush (s : ParseState) (nm : String) : Bible :=
  if s.toc_is_ot = true
  then { s.bible with ot_contents := s.bible.ot_contents ++ [nm] }
  else { s.bible with nt_contents := s.bible.nt_contents ++ [nm] }

/-- Table-of-contents collection of one line: classified lines are pushed,
and the pre-pass is marked complete exactly when 39 OT and 27 NT entries
have been collected. -/
def stepToc (s : ParseState) (line : String) : ParseState :=
  match is_book_line line with
  | some (nm, _) =>
    if (tocPush s nm).ot_contents.length = 39 ∧ (tocPush s nm).nt_contents.length = 27 then
      { s with bible := tocPush s nm, toc_complete := true }
    else { s with bible := tocPush s nm }
  | none => s

/-- One iteration of the `for line in txt.lines()` loop, for an
already-trimmed line. -/
def stepLine (s : ParseState) (line : String) : ParseState :=
  if line = "" then s
  else if s.in_bible = false then
    (if containsSubS line startMarker = true then { s with in_bible := true } else s)
  else if s.in_toc = false ∧ s.in_content = false ∧ containsSubS line otMarker = true then
    { s with in_toc := true, toc_is_ot := true }
  else if s.in_toc = true ∧ containsSubS line ntMarker = true then
    { s with toc_is_ot := false }
  else if s.in_toc = true ∧ s.toc_complete = false then
    stepToc s line
  else if s.toc_complete = true ∧ s.in_content = false then
    (if containsSubS line otMarker = true then
      { s with in_content := true, in_toc := false }
    else s)
  else if s.in_content = false then s
  else stepContent s line

/-- One loop iteration on a raw line (the loop trims first). -/
def step (s : ParseState) (raw : String) : ParseState := stepLine s (trimS raw)

/-- The trailing flush after the loop: seal verse, chapter and book. -/
def finish (s : ParseState) : Bible :=
  { s.bible with ot := (flushAll s).1, nt := (flushAll s).2 }

/-- `parse_gutenberg` from main.rs. -/
def parse_gutenberg (txt : String) : Bible :=
  finish ((splitLines txt).foldl step initState)

/-! ## The per-token verse-reference condition, and its spec-side reading -/

/-- The source's per-token condition: `word.split_once(':')` succeeds and
both sides satisfy `parse::<u32>().is_ok()`. -/
def isVerseRef (w : String) : Bool :=
  match splitOnceColon w with
  | some (a, b) => parseU32okS a && parseU32okS b
  | none => false

/-- Does the token contain a colon? -/
def hasColon : List Char → Bool
  | [] => false
  | c :: r => c == ':' || hasColon r

/-- Characters before the first colon. -/
def beforeColon : List Char → List Char
  | [] => []
  | c :: r => if c = ':' then [] else c :: beforeColon r

/-- Characters after the first colon. -/
def afterColon : List Char → List Char
  | [] => []
  | c :: r => if c = ':' then r else afterColon r

/-- Modelled from the spec: a token is a verse reference iff it "contains a
colon and both the part before the (first) colon and the part after it
parse under strict base-10 non-negative integer parsing". -/
def specVerseRef (w : String) : Bool :=
  hasColon w.data && parseU32okCL (beforeColon w.data) && parseU32okCL (afterColon w.data)

/-! ## Concrete inputs used in counterexamples and witnesses

A minimal well-formed preamble: the Gutenberg start marker, the TOC
section marker, 39 classified Old Testament lines, the New Testament TOC
marker, 27 classified New Testament lines (completing the TOC), and the
second "The Old Testament" marker that starts the content section. -/

def tocPreambleLines : List String :=
  ["*** START OF THE PROJECT GUTENBERG EBOOK ***", "The Old Testament"]
  ++ List.replicate 39 "Ezra" ++ ["The New Testament"]
  ++ List.replicate 27 "The General Epistle of Jude" ++ ["The Old Testament"]

/-- Input whose TOC pre-pass never completes (2 OT entries, 0 NT entries)
although body-looking lines ("Ezra", "1:1 a") follow. -/
def cex1a : String :=
  joinLines ["*** START OF THE PROJECT GUTENBERG", "The Old Testament",
             "Ezra", "The Old Testament", "Ezra", "1:1 a"]

/-- The same trailing body lines behind a completed TOC. -/
def cex1b : String := joinLines (tocPreambleLines ++ ["Ezra", "1:1 a"])

/-- The book header "Ezra" re-encountered after verses were accumulated. -/
def cex2 : String := joinLines (tocPreambleLines ++ ["Ezra", "1:1 a", "Ezra", "1:5 z"])

/-- A verse reference with no trailing tokens, sealed empty by the next one. -/
def cex7 : String := joinLines (tocPreambleLines ++ ["Ezra", "1:1", "1:2 x"])

/-- A continuation line with two consecutive internal spaces. -/
def cex8 : String := joinLines (tocPreambleLines ++ ["Ezra", "1:1 a", "b  c"])

/-! ## Reduction lemmas -/

theorem stepLine_empty (s : ParseState) : stepLine s "" = s := by
  unfold stepLine
  simp

theorem is_book_line_empty : is_book_line "" = none := by decide

/-- In the content section, a nonempty trimmed line is handled by
`stepContent`. -/
theorem step_content_eq (s : ParseState) (raw : String)
    (hb : s.in_bible = true) (hc : s.in_content = true) (ht : s.in_toc = false)
    (hne : trimS raw ≠ "") :
    step s raw = stepContent s (trimS raw) := by
  unfold step stepLine
  simp [hb, hc, ht, hne]

/-- A line that classifies as a header is nonempty after trimming. -/
theorem trim_ne_empty_of_book (raw nm : String) (t : Bool)
    (hcls : is_book_line (trimS raw) = some (nm, t)) : trimS raw ≠ "" := by
  intro h
  rw [h, is_book_line_empty] at hcls
  exact Option.noConfusion hcls

/-! ## C3: Suppression Rule A -/

/-- C3: if the immediately preceding line was accepted as a book header
(`last_line_was_book` is set) and the current line classifies as "1 Kings"
or "2 Kings", the candidate is discarded: the whole assembler state — open
book, open chapter, open verse and emitted output — is unchanged. -/
theorem c3_suppression_rule_a (s : ParseState) (raw nm : String) (t : Bool)
    (hb : s.in_bible = true) (hc : s.in_content = true) (ht : s.in_toc = false)
    (hlast : s.last_line_was_book = true)
    (hcls : is_book_line (trimS raw) = some (nm, t))
    (hnm : nm = "1 Kings" ∨ nm = "2 Kings") :
    step s raw = s := by
  rw [step_content_eq s raw hb hc ht (trim_ne_empty_of_book raw nm t hcls)]
  unfold stepContent
  rw [hcls]
  show stepHeader s nm t = s
  unfold stepHeader
  rw [if_pos ⟨hlast, hnm⟩]

def c3State : ParseState :=
  { initState with in_bible := true, in_content := true, last_line_was_book := true }

theorem c3_witness :
    (c3State.in_bible = true ∧ c3State.in_content = true ∧ c3State.in_toc = false ∧
     c3State.last_line_was_book = true ∧
     is_book_line (trimS "The First Book of the Kings") = some ("1 Kings", true)) ∧
    step c3State "The First Book of the Kings" = c3State :=
  ⟨⟨rfl, rfl, rfl, rfl, by decide⟩,
   c3_suppression_rule_a c3State "The First Book of the Kings" "1 Kings" true
     rfl rfl rfl rfl (by decide) (Or.inl rfl)⟩

/-! ## C4: Suppression Rule B -/

/-- C4: if a line classifies as "1 Kings" or "2 Kings" while the open
book's name contains "Samuel" and no verse is open for it, the candidate
is discarded and the assembler state is unchanged by that line. -/
theorem c4_suppression_rule_b (s : ParseState) (raw nm : String) (t : Bool)
    (hb : s.in_bible = true) (hc : s.in_content = true) (ht : s.in_toc = false)
    (hcls : is_book_line (trimS raw) = some (nm, t))
    (hnm : nm = "1 Kings" ∨ nm = "2 Kings")
    (hsam : bookNameHasSamuel s.current_book = true)
    (hv : s.current_verse = none) :
    step s raw = s := by
  rw [step_content_eq s raw hb hc ht (trim_ne_empty_of_book raw nm t hcls)]
  unfold stepContent
  rw [hcls]
  show stepHeader s nm t = s
  unfold stepHeader
  by_cases hA : s.last_line_was_book = true ∧ (nm = "1 Kings" ∨ nm = "2 Kings")
  · rw [if_pos hA]
  · rw [if_neg hA, if_pos ⟨hnm, hsam, hv⟩]

def c4State : ParseState :=
  { initState with
    in_bible := true
    in_content := true
    current_book := some ⟨"1 Samuel", []⟩ }

theorem c4_witness :
    (c4State.in_bible = true ∧ c4State.in_content = true ∧ c4State.in_toc = false ∧
     is_book_line (trimS "The Second Book of the Kings") = some ("2 Kings", true) ∧
     bookNameHasSamuel c4State.current_book = true ∧ c4State.current_verse = none) ∧
    step c4State "The Second Book of the Kings" = c4State :=
  ⟨⟨rfl, rfl, rfl, by decide, by decide, rfl⟩,
   c4_suppression_rule_b c4State "The Second Book of the Kings" "2 Kings" true
     rfl rfl rfl (by decide) (Or.inr rfl) (by decide) rfl⟩

/-! ## C10: determinism -/

/-- C10: the classifier and assembler are deterministic — byte-for-byte
identical input texts produce structurally identical Documents (the
embedding is a pure function of the input text). -/
theorem c10_deterministic (t1 t2 : String) (h : t1 = t2) :
    parse_gutenberg t1 = parse_gutenberg t2 := by rw [h]

theorem c10_witness :
    ("1:1 a" : String) = "1:1 a" ∧ parse_gutenberg "1:1 a" = parse_gutenberg "1:1 a" :=
  ⟨rfl, c10_deterministic "1:1 a" "1:1 a" rfl⟩

/-! ## Counterexample evaluations -/

/-- C1 counterexample: in `cex1a` the TOC pre-pass collected only 2 OT and
0 NT entries, and the trailing body lines "Ezra" / "1:1 a" produce no
Book at all; behind a completed TOC (`cex1b`) the same two body lines
produce the Ezra book with chapter 1 verse 1.  The emitted Books,
Chapters and Verses therefore do depend on the table of contents having
been completed, and body lines are not parsed when fewer than 39+27
entries were collected. -/
theorem c1_counterexample :
    (parse_gutenberg cex1a).ot_contents.length = 2 ∧
    (parse_gutenberg cex1a).ot = [] ∧
    (parse_gutenberg cex1b).ot = [⟨"Ezra", [⟨"1", [⟨"1", "a"⟩]⟩]⟩] := by
  refine ⟨?_, ?_, ?_⟩ <;> rfl

/-- C2 counterexample: in `cex2` the header "Ezra" is re-encountered after
verses were accumulated, and the final output contains two distinct Book
entities both named "Ezra" — a new Book entity is created, the existing
Book is not re-opened. -/
theorem c2_counterexample :
    (parse_gutenberg cex2).ot =
      [⟨"Ezra", [⟨"1", [⟨"1", "a"⟩]⟩]⟩, ⟨"Ezra", [⟨"1", [⟨"5", "z"⟩]⟩]⟩] := by
  rfl

/-- C7 counterexample: in `cex7` the verse opened by the bare reference
line "1:1" is sealed with empty text when "1:2 x" arrives, so the returned
Document contains a sealed Verse whose text is empty. -/
theorem c7_counterexample :
    (parse_gutenberg cex7).ot = [⟨"Ezra", [⟨"1", [⟨"1", ""⟩, ⟨"2", "x"⟩]⟩]⟩] := by
  rfl

/-- C8 counterexample: in `cex8` the continuation line "b  c" (two inner
spaces) is appended verbatim, so the stored verse text "a b  c" contains a
run of two consecutive spaces — verse text is not fully
whitespace-normalized. -/
theorem c8_counterexample :
    (parse_gutenberg cex8).ot = [⟨"Ezra", [⟨"1", [⟨"1", "a b  c"⟩]⟩]⟩] ∧
    containsSubS "a b  c" "  " = true := by
  exact ⟨rfl, rfl⟩

/-! ## Header acceptance and pre-header discarding -/

theorem sealChapterIntoBook_isSome (cc : Option Chapter) (bo : Option Book) :
    (sealChapterIntoBook cc bo).isSome = bo.isSome := by
  cases cc <;> cases bo <;> rfl

theorem pushBook_counts (bo : Option Book) (io : Bool) (ot nt : List Book) :
    (pushBook bo io ot nt).1.length + (pushBook bo io ot nt).2.length
      = ot.length + nt.length + (if bo.isSome then 1 else 0) := by
  cases bo <;> cases io <;> simp [pushBook] <;> omega

/-- Under the content mode flags, a classified line reaches `stepHeader`. -/
theorem step_header_eq (s : ParseState) (raw nm : String) (t : Bool)
    (hb : s.in_bible = true) (hc : s.in_content = true) (ht : s.in_toc = false)
    (hcls : is_book_line (trimS raw) = some (nm, t)) :
    step s raw = stepHeader s nm t := by
  rw [step_content_eq s raw hb hc ht (trim_ne_empty_of_book raw nm t hcls)]
  unfold stepContent
  rw [hcls]

/-- When neither suppression rule fires, the header is accepted. -/
theorem stepHeader_accept (s : ParseState) (nm : String) (t : Bool)
    (hA : ¬(s.last_line_was_book = true ∧ (nm = "1 Kings" ∨ nm = "2 Kings")))
    (hB : ¬((nm = "1 Kings" ∨ nm = "2 Kings") ∧ bookNameHasSamuel s.current_book = true
            ∧ s.current_verse = none)) :
    stepHeader s nm t = acceptHeader s nm t := by
  unfold stepHeader
  rw [if_neg hA, if_neg hB]

/-- C2 amended: an accepted header always opens a fresh empty Book entity
named by the candidate — independently of whether the name is already in
`found_books` (the state is universally quantified over `found_books`, so
re-encountering an already-seen name behaves identically and never
errors) — and seals the previously open book, if any, into its testament
collection, growing the emitted book count by exactly one. -/
theorem c2_reencounter_creates_new_book (s : ParseState) (raw nm : String) (t : Bool)
    (hb : s.in_bible = true) (hc : s.in_content = true) (ht : s.in_toc = false)
    (hcls : is_book_line (trimS raw) = some (nm, t))
    (hA : ¬(s.last_line_was_book = true ∧ (nm = "1 Kings" ∨ nm = "2 Kings")))
    (hB : ¬((nm = "1 Kings" ∨ nm = "2 Kings") ∧ bookNameHasSamuel s.current_book = true
            ∧ s.current_verse = none)) :
    (step s raw).current_book = some ⟨nm, []⟩ ∧
    (step s raw).current_chapter = none ∧
    (step s raw).current_verse = none ∧
    (step s raw).bible.ot.length + (step s raw).bible.nt.length
      = s.bible.ot.length + s.bible.nt.length
        + (if s.current_book.isSome then 1 else 0) := by
  rw [step_header_eq s raw nm t hb hc ht hcls, stepHeader_accept s nm t hA hB]
  refine ⟨rfl, rfl, rfl, ?_⟩
  show (flushAll s).1.length + (flushAll s).2.length = _
  unfold flushAll
  rw [pushBook_counts, sealChapterIntoBook_isSome]

def c2State : ParseState :=
  { initState with
    in_bible := true
    in_content := true
    current_book := some ⟨"Ezra", [⟨"1", [⟨"1", "a"⟩]⟩]⟩
    found_books := ["Ezra"] }

theorem c2_witness :
    (c2State.in_bible = true ∧ c2State.in_content = true ∧ c2State.in_toc = false ∧
     is_book_line (trimS "Ezra") = some ("Ezra", true) ∧
     "Ezra" ∈ c2State.found_books ∧
     ¬(c2State.last_line_was_book = true ∧ ("Ezra" = "1 Kings" ∨ "Ezra" = "2 Kings")) ∧
     ¬(("Ezra" = "1 Kings" ∨ "Ezra" = "2 Kings")
        ∧ bookNameHasSamuel c2State.current_book = true
        ∧ c2State.current_verse = none)) ∧
    ((step c2State "Ezra").current_book = some ⟨"Ezra", []⟩ ∧
     (step c2State "Ezra").current_chapter = none ∧
     (step c2State "Ezra").current_verse = none ∧
     (step c2State "Ezra").bible.ot.length + (step c2State "Ezra").bible.nt.length
       = c2State.bible.ot.length + c2State.bible.nt.length
         + (if c2State.current_book.isSome then 1 else 0)) :=
  ⟨⟨rfl, rfl, rfl, by decide, by decide, by decide, by decide⟩,
   c2_reencounter_creates_new_book c2State "Ezra" "Ezra" true rfl rfl rfl
     (by decide) (by decide) (by decide)⟩

/-- With no open book, the flush pushes nothing: the open chapter and
verse are discarded and both testament collections are unchanged. -/
theorem flushAll_no_book (s : ParseState) (h : s.current_book = none) :
    flushAll s = (s.bible.ot, s.bible.nt) := by
  unfold flushAll
  rw [h]
  cases sealVerseIntoChapter s.current_verse s.current_chapter <;>
    simp [sealChapterIntoBook, pushBook]

/-- The end-of-input flush leaves both testament collections unchanged
when no book is open (the open chapter and verse are discarded). -/
theorem finish_no_book (s : ParseState) (h : s.current_book = none) :
    (finish s).ot = s.bible.ot ∧ (finish s).nt = s.bible.nt := by
  unfold finish
  rw [flushAll_no_book s h]
  exact ⟨rfl, rfl⟩

/-- C9: when no book is open, an open chapter (and verse) is discarded
rather than flushed: both testament collections are unchanged at end of
input and on the next accepted header, and the header acceptance clears
the open chapter and verse, so pre-header chapters and verses never reach
the returned Document. -/
theorem c9_preheader_content_discarded (s : ParseState) (hbk : s.current_book = none) :
    ((finish s).ot = s.bible.ot ∧ (finish s).nt = s.bible.nt) ∧
    (∀ (raw nm : String) (t : Bool),
      s.in_bible = true → s.in_content = true → s.in_toc = false →
      s.last_line_was_book = false →
      is_book_line (trimS raw) = some (nm, t) →
      (step s raw).bible.ot = s.bible.ot ∧ (step s raw).bible.nt = s.bible.nt ∧
      (step s raw).current_chapter = none ∧ (step s raw).current_verse = none) := by
  refine ⟨finish_no_book s hbk, ?_⟩
  intro raw nm t hb hc ht hlast hcls
  rw [step_header_eq s raw nm t hb hc ht hcls,
      stepHeader_accept s nm t (by simp [hlast]) (by simp [bookNameHasSamuel, hbk])]
  refine ⟨?_, ?_, rfl, rfl⟩
  · show (flushAll s).1 = s.bible.ot
    rw [flushAll_no_book s hbk]
  · show (flushAll s).2 = s.bible.nt
    rw [flushAll_no_book s hbk]

def c9State : ParseState :=
  { initState with
    in_bible := true
    in_content := true
    current_chapter := some ⟨"1", [⟨"1", "x"⟩]⟩
    current_verse := some ⟨"2", "y"⟩ }

theorem c9_witness :
    (c9State.current_book = none ∧ c9State.in_bible = true ∧
     c9State.in_content = true ∧ c9State.in_toc = false ∧
     c9State.last_line_was_book = false ∧
     is_book_line (trimS "Ezra") = some ("Ezra", true)) ∧
    ((finish c9State).ot = c9State.bible.ot ∧ (finish c9State).nt = c9State.bible.nt ∧
     (step c9State "Ezra").bible.ot = c9State.bible.ot ∧
     (step c9State "Ezra").bible.nt = c9State.bible.nt ∧
     (step c9State "Ezra").current_chapter = none ∧
     (step c9State "Ezra").current_verse = none) := by
  have H := c9_preheader_content_discarded c9State rfl
  have H2 := H.2 "Ezra" "Ezra" true rfl rfl rfl rfl (by decide)
  exact ⟨⟨rfl, rfl, rfl, rfl, rfl, by decide⟩,
    ⟨H.1.1, H.1.2, H2.1, H2.2.1, H2.2.2.1, H2.2.2.2⟩⟩

/-! ## C5: the verse-reference transition -/

/-- Under the content mode flags, a line that does not classify as a
header reaches `stepBody`. -/
theorem step_body_eq (s : ParseState) (raw : String)
    (hb : s.in_bible = true) (hc : s.in_content = true) (ht : s.in_toc = false)
    (hne : trimS raw ≠ "") (hnb : is_book_line (trimS raw) = none) :
    step s raw = stepBody s (trimS raw) := by
  rw [step_content_eq s raw hb hc ht hne]
  unfold stepContent
  rw [hnb]

/-- Behaviour of `applyRef` when a verse is open: the sealed verse
(with the pre-index tokens appended) goes into the open chapter; a new
chapter is opened iff the chapter string differs or no chapter is open;
the new verse carries the post-colon decimal and the post-index tokens. -/
theorem applyRef_spec (s : ParseState) (words : List String) (i : Nat)
    (chN vN : String) (v : Verse) (hv : s.current_verse = some v) :
    (applyRef s words i chN vN).current_verse
      = some ⟨vN, joinWords (words.drop (i + 1))⟩ ∧
    (applyRef s words i chN vN).bible = s.bible ∧
    (match s.current_chapter with
     | some c =>
       if c.number = chN then
         (applyRef s words i chN vN).current_chapter
           = some ⟨c.number, c.verses ++ [sealedVerse v words i]⟩ ∧
         (applyRef s words i chN vN).current_book = s.current_book
       else
         (applyRef s words i chN vN).current_chapter = some ⟨chN, []⟩ ∧
         (applyRef s words i chN vN).current_book
           = sealChapterIntoBook (some ⟨c.number, c.verses ++ [sealedVerse v words i]⟩)
               s.current_book
     | none =>
       (applyRef s words i chN vN).current_chapter = some ⟨chN, []⟩ ∧
       (applyRef s words i chN vN).current_book = s.current_book) := by
  unfold applyRef sealPrev
  rw [hv]
  cases hcc : s.current_chapter with
  | none =>
    simp only [sealVerseIntoChapter, chMismatch, if_pos rfl]
    exact ⟨rfl, rfl, rfl, rfl⟩
  | some c =>
    simp only [sealVerseIntoChapter]
    by_cases hn : c.number = chN
    · have hmm : chMismatch (some { c with verses := c.verses ++ [sealedVerse v words i] }) chN
          = false := by
        simp [chMismatch, hn]
      rw [hmm]
      simp only [Bool.false_eq_true, if_false, if_pos hn]
      simp
    · have hmm : chMismatch (some { c with verses := c.verses ++ [sealedVerse v words i] }) chN
          = true := by
        simp [chMismatch, hn]
      rw [hmm]
      simp only [if_true, if_neg hn]
      simp

/-- C5: on a non-header body line whose first verse-reference token sits
at token index `i`, the tokens before `i` are appended (space-joined) to
the verse being sealed, which is pushed into the open chapter; a new
chapter is opened (sealing the current one into the open book) iff the
decimal before the colon differs from the open chapter's number or no
chapter is open; and a new verse is opened whose number is the decimal
after the colon and whose initial text is the space-joined tokens after
index `i` (empty when none remain). -/
theorem c5_verse_reference_line (s : ParseState) (raw : String)
    (words : List String) (i : Nat) (chN vN : String) (v : Verse)
    (hb : s.in_bible = true) (hc : s.in_content = true) (ht : s.in_toc = false)
    (hnb : is_book_line (trimS raw) = none)
    (hw : splitWsS (trimS raw) = words)
    (href : findRef 0 words = some (i, chN, vN))
    (hv : s.current_verse = some v) :
    (step s raw).current_verse = some ⟨vN, joinWords (words.drop (i + 1))⟩ ∧
    (step s raw).bible = s.bible ∧
    (match s.current_chapter with
     | some c =>
       if c.number = chN then
         (step s raw).current_chapter
           = some ⟨c.number, c.verses ++ [sealedVerse v words i]⟩ ∧
         (step s raw).current_book = s.current_book
       else
         (step s raw).current_chapter = some ⟨chN, []⟩ ∧
         (step s raw).current_book
           = sealChapterIntoBook (some ⟨c.number, c.verses ++ [sealedVerse v words i]⟩)
               s.current_book
     | none =>
       (step s raw).current_chapter = some ⟨chN, []⟩ ∧
       (step s raw).current_book = s.current_book) := by
  have hne : trimS raw ≠ "" := by
    intro h
    rw [h] at hw
    rw [← hw] at href
    exact Option.noConfusion href
  rw [step_body_eq s raw hb hc ht hne hnb]
  unfold stepBody
  rw [hw, href]
  exact applyRef_spec { s with last_line_was_book := false } words i chN vN v hv

def c5State : ParseState :=
  { initState with
    in_bible := true
    in_content := true
    current_book := some ⟨"Ezra", []⟩
    current_chapter := some ⟨"1", [⟨"1", "a"⟩]⟩
    current_verse := some ⟨"2", "b"⟩ }

theorem c5_witness :
    (c5State.in_bible = true ∧ c5State.in_content = true ∧ c5State.in_toc = false ∧
     is_book_line (trimS "c d 2:1 e") = none ∧
     splitWsS (trimS "c d 2:1 e") = ["c", "d", "2:1", "e"] ∧
     findRef 0 ["c", "d", "2:1", "e"] = some (2, "2", "1") ∧
     c5State.current_verse = some ⟨"2", "b"⟩) ∧
    ((step c5State "c d 2:1 e").current_verse
       = some ⟨"1", joinWords (["c", "d", "2:1", "e"].drop 3)⟩ ∧
     (step c5State "c d 2:1 e").bible = c5State.bible ∧
     (match c5State.current_chapter with
      | some c =>
        if c.number = "2" then
          (step c5State "c d 2:1 e").current_chapter
            = some ⟨c.number, c.verses ++ [sealedVerse ⟨"2", "b"⟩ ["c", "d", "2:1", "e"] 2]⟩ ∧
          (step c5State "c d 2:1 e").current_book = c5State.current_book
        else
          (step c5State "c d 2:1 e").current_chapter = some ⟨"2", []⟩ ∧
          (step c5State "c d 2:1 e").current_book
            = sealChapterIntoBook
                (some ⟨c.number, c.verses ++ [sealedVerse ⟨"2", "b"⟩ ["c", "d", "2:1", "e"] 2]⟩)
                c5State.current_book
      | none =>
        (step c5State "c d 2:1 e").current_chapter = some ⟨"2", []⟩ ∧
        (step c5State "c d 2:1 e").current_book = c5State.current_book)) :=
  ⟨⟨rfl, rfl, rfl, by decide, by decide, by decide, rfl⟩,
   c5_verse_reference_line c5State "c d 2:1 e" ["c", "d", "2:1", "e"] 2 "2" "1"
     ⟨"2", "b"⟩ rfl rfl rfl (by decide) (by decide) (by decide) rfl⟩

/-! ## C6: the verse-reference token condition -/

theorem splitOnceCL_some (l a b : List Char) (h : splitOnceCL l = some (a, b)) :
    hasColon l = true ∧ a = beforeColon l ∧ b = afterColon l := by
  induction l generalizing a b with
  | nil => exact Option.noConfusion h
  | cons c r ih =>
    unfold splitOnceCL at h
    by_cases hcn : c = ':'
    · rw [if_pos hcn] at h
      obtain ⟨ha, hb⟩ := Prod.mk.injEq .. ▸ Option.some.injEq .. ▸ h
      subst hcn
      refine ⟨by simp [hasColon], ?_, ?_⟩
      · simp [beforeColon, ← ha]
      · simp [afterColon, ← hb]
    · rw [if_neg hcn] at h
      cases hr : splitOnceCL r with
      | none => rw [hr] at h; exact Option.noConfusion h
      | some p =>
        obtain ⟨a0, b0⟩ := p
        rw [hr] at h
        obtain ⟨h1, h2, h3⟩ := ih a0 b0 hr
        have ha : a = c :: a0 := by
          have := (Option.some.injEq .. ▸ h)
          exact (congrArg Prod.fst this).symm
        have hb : b = b0 := by
          have := (Option.some.injEq .. ▸ h)
          exact (congrArg Prod.snd this).symm
        refine ⟨by simp [hasColon, h1], ?_, ?_⟩
        · rw [ha, h2]; simp [beforeColon, hcn]
        · rw [hb, h3]; simp [afterColon, hcn]

theorem splitOnceCL_none (l : List Char) (h : splitOnceCL l = none) :
    hasColon l = false := by
  induction l with
  | nil => rfl
  | cons c r ih =>
    unfold splitOnceCL at h
    by_cases hcn : c = ':'
    · rw [if_pos hcn] at h; exact Option.noConfusion h
    · rw [if_neg hcn] at h
      cases hr : splitOnceCL r with
      | some p => rw [hr] at h; exact Option.noConfusion h
      | none =>
        have hcb : (c == ':') = false := by simp [hcn]
        simp [hasColon, hcb, ih hr]

/-- The source's per-token condition agrees with the spec's reading. -/
theorem isVerseRef_eq_spec (w : String) : isVerseRef w = specVerseRef w := by
  unfold isVerseRef specVerseRef splitOnceColon
  cases hsp : splitOnceCL w.data with
  | none => simp [splitOnceCL_none w.data hsp]
  | some p =>
    obtain ⟨a, b⟩ := p
    obtain ⟨h1, h2, h3⟩ := splitOnceCL_some w.data a b hsp
    subst h2 h3
    simp [h1, parseU32okS, Bool.and_assoc]

/-- If every token fails the per-token condition, the scan finds nothing. -/
theorem findRef_none_of_all (n : Nat) (ws : List String)
    (h : ∀ w ∈ ws, isVerseRef w = false) : findRef n ws = none := by
  induction ws generalizing n with
  | nil => rfl
  | cons w ws ih =>
    have hw := h w (List.mem_cons_self w ws)
    unfold findRef
    cases hsp : splitOnceColon w with
    | none => exact ih _ (fun x hx => h x (List.mem_cons_of_mem _ hx))
    | some p =>
      obtain ⟨a, b⟩ := p
      unfold isVerseRef at hw
      rw [hsp] at hw
      have hw2 : (parseU32okS a && parseU32okS b) = false := hw
      show (if parseU32okS a = true ∧ parseU32okS b = true then some (n, a, b)
            else findRef (n + 1) ws) = none
      rw [if_neg ?_]
      · exact ih _ (fun x hx => h x (List.mem_cons_of_mem _ hx))
      · intro hab
        rw [hab.1, hab.2] at hw2
        simp at hw2

/-- A non-header line with no valid reference token is continuation text:
no chapter or verse transition and no change to the emitted output. -/
theorem stepBody_continuation (s : ParseState) (line : String)
    (hnr : findRef 0 (splitWsS line) = none) :
    (stepBody s line).bible = s.bible ∧
    (stepBody s line).current_book = s.current_book ∧
    (stepBody s line).current_chapter = s.current_chapter ∧
    Option.map Verse.number (stepBody s line).current_verse
      = Option.map Verse.number s.current_verse := by
  unfold stepBody
  rw [hnr]
  unfold appendContinuation
  cases s.current_verse with
  | none => exact ⟨rfl, rfl, rfl, rfl⟩
  | some v => exact ⟨rfl, rfl, rfl, rfl⟩

/-- C6: a whitespace-separated token of a non-header line is treated as a
verse reference iff it contains a colon and both the part before the first
colon and the part after it pass strict `u32` parsing (`isVerseRef` agrees
with the spec-modelled `specVerseRef`); a line all of whose tokens fail
this condition — in particular one whose colon-containing tokens have a
non-numeric side — is ordinary body text: no chapter or verse transition
occurs, nothing is emitted, and no error is raised (the embedding is
total). -/
theorem c6_reference_token_iff :
    (∀ w : String, isVerseRef w = specVerseRef w) ∧
    (∀ (s : ParseState) (raw : String),
      s.in_bible = true → s.in_content = true → s.in_toc = false →
      is_book_line (trimS raw) = none →
      (∀ w ∈ splitWsS (trimS raw), isVerseRef w = false) →
      (step s raw).bible = s.bible ∧
      (step s raw).current_book = s.current_book ∧
      (step s raw).current_chapter = s.current_chapter ∧
      Option.map Verse.number (step s raw).current_verse
        = Option.map Verse.number s.current_verse) := by
  refine ⟨isVerseRef_eq_spec, ?_⟩
  intro s raw hb hc ht hnb hall
  by_cases hne : trimS raw = ""
  · unfold step
    rw [hne, stepLine_empty]
    exact ⟨rfl, rfl, rfl, rfl⟩
  · rw [step_body_eq s raw hb hc ht hne hnb]
    exact stepBody_continuation s (trimS raw) (findRef_none_of_all 0 _ hall)

theorem c6_witness :
    (c5State.in_bible = true ∧ c5State.in_content = true ∧ c5State.in_toc = false ∧
     is_book_line (trimS "for 1:x and x:1 and 1x:2 and ::3") = none ∧
     (∀ w ∈ splitWsS (trimS "for 1:x and x:1 and 1x:2 and ::3"), isVerseRef w = false)) ∧
    (isVerseRef "1:x" = specVerseRef "1:x" ∧
     (step c5State "for 1:x and x:1 and 1x:2 and ::3").bible = c5State.bible ∧
     (step c5State "for 1:x and x:1 and 1x:2 and ::3").current_book = c5State.current_book ∧
     (step c5State "for 1:x and x:1 and 1x:2 and ::3").current_chapter
       = c5State.current_chapter ∧
     Option.map Verse.number
         (step c5State "for 1:x and x:1 and 1x:2 and ::3").current_verse
       = Option.map Verse.number c5State.current_verse) := by
  have H := c6_reference_token_iff
  have H2 := H.2 c5State "for 1:x and x:1 and 1x:2 and ::3" rfl rfl rfl
    (by decide) (by decide)
  exact ⟨⟨rfl, rfl, rfl, by decide, by decide⟩,
    ⟨H.1 "1:x", H2.1, H2.2.1, H2.2.2.1, H2.2.2.2⟩⟩

/-! ## C8 amended: continuation-line joining -/

/-- C8 amended: a continuation line (non-header, no valid reference token,
verse open) is appended to the open verse's text with a single separating
space when the text is nonempty (verbatim when empty); the line's own
internal whitespace is preserved as trimmed, so stored verse text can
contain runs of more than one space.  Chapter, book and output are
untouched. -/
theorem c8_continuation_single_space (s : ParseState) (raw : String) (v : Verse)
    (hb : s.in_bible = true) (hc : s.in_content = true) (ht : s.in_toc = false)
    (hne : trimS raw ≠ "")
    (hnb : is_book_line (trimS raw) = none)
    (hnr : findRef 0 (splitWsS (trimS raw)) = none)
    (hv : s.current_verse = some v) :
    (step s raw).current_verse
      = some ⟨v.number, if v.text = "" then trimS raw else v.text ++ " " ++ trimS raw⟩ ∧
    (step s raw).bible = s.bible ∧
    (step s raw).current_book = s.current_book ∧
    (step s raw).current_chapter = s.current_chapter := by
  rw [step_body_eq s raw hb hc ht hne hnb]
  unfold stepBody
  rw [hnr]
  unfold appendContinuation
  rw [show ({ s with last_line_was_book := false } : ParseState).current_verse
        = some v from hv]
  exact ⟨rfl, rfl, rfl, rfl⟩

theorem c8_witness :
    (c5State.in_bible = true ∧ c5State.in_content = true ∧ c5State.in_toc = false ∧
     trimS "b  c" ≠ "" ∧ is_book_line (trimS "b  c") = none ∧
     findRef 0 (splitWsS (trimS "b  c")) = none ∧
     c5State.current_verse = some ⟨"2", "b"⟩) ∧
    ((step c5State "b  c").current_verse
       = some ⟨"2", if ("b" : String) = "" then trimS "b  c" else "b" ++ " " ++ trimS "b  c"⟩ ∧
     (step c5State "b  c").bible = c5State.bible ∧
     (step c5State "b  c").current_book = c5State.current_book ∧
     (step c5State "b  c").current_chapter = c5State.current_chapter) :=
  ⟨⟨rfl, rfl, rfl, by decide, by decide, by decide, rfl⟩,
   c8_continuation_single_space c5State "b  c" ⟨"2", "b"⟩ rfl rfl rfl
     (by decide) (by decide) (by decide) rfl⟩

/-! ## C7 amended: every emitted chapter has at least one verse -/

/-- All chapters of a book carry at least one verse. -/
def chaptersNonempty (b : Book) : Prop := ∀ c ∈ b.chapters, c.verses ≠ []

/-- Assembler invariant: every book already emitted and the open book hold
only nonempty chapters, and an open chapter always comes with an open
verse (a chapter is only ever created together with its first verse). -/
def stInv (s : ParseState) : Prop :=
  (∀ b ∈ s.bible.ot, chaptersNonempty b) ∧
  (∀ b ∈ s.bible.nt, chaptersNonempty b) ∧
  (∀ b, s.current_book = some b → chaptersNonempty b) ∧
  (∀ c, s.current_chapter = some c → s.current_verse ≠ none)

theorem stInv_init : stInv initState := by
  refine ⟨?_, ?_, ?_, ?_⟩ <;> simp [initState, chaptersNonempty]

theorem flushAll_inv (s : ParseState) (hInv : stInv s) :
    (∀ b ∈ (flushAll s).1, chaptersNonempty b) ∧
    (∀ b ∈ (flushAll s).2, chaptersNonempty b) := by
  obtain ⟨h1, h2, h3, h4⟩ := hInv
  have hccOK : ∀ c, sealVerseIntoChapter s.current_verse s.current_chapter = some c →
      c.verses ≠ [] := by
    intro c hc
    cases hv : s.current_verse with
    | none =>
      rw [hv] at hc
      exact absurd hv (h4 c hc)
    | some v =>
      cases hcc : s.current_chapter with
      | none => rw [hv, hcc] at hc; exact Option.noConfusion hc
      | some c0 =>
        rw [hv, hcc] at hc
        have he : { c0 with verses := c0.verses ++ [v] } = c := Option.some.inj hc
        rw [← he]
        simp
  have hbkOK : ∀ b,
      sealChapterIntoBook (sealVerseIntoChapter s.current_verse s.current_chapter)
        s.current_book = some b → chaptersNonempty b := by
    intro b hb
    cases hcc : sealVerseIntoChapter s.current_verse s.current_chapter with
    | none => rw [hcc] at hb; exact h3 b hb
    | some c =>
      cases hcb : s.current_book with
      | none => rw [hcc, hcb] at hb; exact Option.noConfusion hb
      | some b0 =>
        rw [hcc, hcb] at hb
        have he : { b0 with chapters := b0.chapters ++ [c] } = b := Option.some.inj hb
        rw [← he]
        intro ch hch
        rcases List.mem_append.mp hch with hm | hm
        · exact h3 b0 hcb ch hm
        · rw [List.mem_singleton.mp hm]
          exact hccOK c hcc
  unfold flushAll
  cases hbk : sealChapterIntoBook (sealVerseIntoChapter s.current_verse s.current_chapter)
      s.current_book with
  | none => cases s.is_ot <;> exact ⟨h1, h2⟩
  | some b =>
    cases s.is_ot with
    | true =>
      refine ⟨?_, h2⟩
      intro x hx
      rcases List.mem_append.mp hx with hm | hm
      · exact h1 x hm
      · rw [List.mem_singleton.mp hm]
        exact hbkOK b hbk
    | false =>
      refine ⟨h1, ?_⟩
      intro x hx
      rcases List.mem_append.mp hx with hm | hm
      · exact h2 x hm
      · rw [List.mem_singleton.mp hm]
        exact hbkOK b hbk

theorem stInv_acceptHeader (s : ParseState) (nm : String) (t : Bool) (h : stInv s) :
    stInv (acceptHeader s nm t) := by
  obtain ⟨hf1, hf2⟩ := flushAll_inv s h
  refine ⟨hf1, hf2, ?_, ?_⟩
  · intro b hb
    have he : (⟨nm, []⟩ : Book) = b := Option.some.inj hb
    rw [← he]
    intro c hc
    exact absurd hc (List.not_mem_nil c)
  · intro c hc
    exact Option.noConfusion hc

theorem stInv_stepHeader (s : ParseState) (nm : String) (t : Bool) (h : stInv s) :
    stInv (stepHeader s nm t) := by
  unfold stepHeader
  split
  · exact h
  · split
    · exact h
    · exact stInv_acceptHeader s nm t h

theorem stInv_flag (s : ParseState) (b : Bool) (h : stInv s) :
    stInv { s with last_line_was_book := b } := by
  obtain ⟨h1, h2, h3, h4⟩ := h
  exact ⟨h1, h2, h3, h4⟩

theorem stInv_applyRef (s : ParseState) (words : List String) (i : Nat)
    (chN vN : String) (h : stInv s) : stInv (applyRef s words i chN vN) := by
  obtain ⟨h1, h2, h3, h4⟩ := h
  have hccOK : ∀ c, sealPrev s.current_verse words i s.current_chapter = some c →
      c.verses ≠ [] := by
    intro c hc
    unfold sealPrev at hc
    cases hv : s.current_verse with
    | none =>
      rw [hv] at hc
      exact absurd hv (h4 c hc)
    | some v =>
      rw [hv] at hc
      cases hcc : s.current_chapter with
      | none => rw [hcc] at hc; exact Option.noConfusion hc
      | some c0 =>
        rw [hcc] at hc
        have he : { c0 with verses := c0.verses ++ [sealedVerse v words i] } = c :=
          Option.some.inj hc
        rw [← he]
        simp
  unfold applyRef
  split
  · refine ⟨h1, h2, ?_, ?_⟩
    · intro b hb
      dsimp only at hb
      cases hcc : sealPrev s.current_verse words i s.current_chapter with
      | none => rw [hcc] at hb; exact h3 b hb
      | some c =>
        cases hcb : s.current_book with
        | none => rw [hcc, hcb] at hb; exact Option.noConfusion hb
        | some b0 =>
          rw [hcc, hcb] at hb
          have he : { b0 with chapters := b0.chapters ++ [c] } = b := Option.some.inj hb
          rw [← he]
          intro ch hch
          rcases List.mem_append.mp hch with hm | hm
          · exact h3 b0 hcb ch hm
          · rw [List.mem_singleton.mp hm]
            exact hccOK c hcc
    · intro c hc hnone
      exact Option.noConfusion hnone
  · refine ⟨h1, h2, h3, ?_⟩
    intro c hc hnone
    exact Option.noConfusion hnone

theorem stInv_appendContinuation (s : ParseState) (line : String) (h : stInv s) :
    stInv (appendContinuation s line) := by
  obtain ⟨h1, h2, h3, h4⟩ := h
  unfold appendContinuation
  cases s.current_verse with
  | none => exact ⟨h1, h2, h3, h4⟩
  | some v =>
    refine ⟨h1, h2, h3, ?_⟩
    intro c hc hnone
    exact Option.noConfusion hnone

theorem stInv_stepBody (s : ParseState) (line : String) (h : stInv s) :
    stInv (stepBody s line) := by
  unfold stepBody
  cases findRef 0 (splitWsS line) with
  | some p =>
    obtain ⟨i, chN, vN⟩ := p
    exact stInv_applyRef _ (splitWsS line) i chN vN (stInv_flag s false h)
  | none => exact stInv_appendContinuation _ line (stInv_flag s false h)

theorem stInv_stepContent (s : ParseState) (line : String) (h : stInv s) :
    stInv (stepContent s line) := by
  unfold stepContent
  cases is_book_line line with
  | some p =>
    obtain ⟨nm, t⟩ := p
    exact stInv_stepHeader s nm t h
  | none => exact stInv_stepBody s line h

theorem tocPush_ot (s : ParseState) (nm : String) : (tocPush s nm).ot = s.bible.ot := by
  unfold tocPush
  split_ifs <;> rfl

theorem tocPush_nt (s : ParseState) (nm : String) : (tocPush s nm).nt = s.bible.nt := by
  unfold tocPush
  split_ifs <;> rfl

/-- Transport `stInv` along equal invariant-relevant fields. -/
theorem stInv_of_fields {s t : ParseState}
    (hot : t.bible.ot = s.bible.ot) (hnt : t.bible.nt = s.bible.nt)
    (hbk : t.current_book = s.current_book)
    (hcc : t.current_chapter = s.current_chapter)
    (hcv : t.current_verse = s.current_verse)
    (h : stInv s) : stInv t := by
  obtain ⟨h1, h2, h3, h4⟩ := h
  refine ⟨?_, ?_, ?_, ?_⟩
  · rw [hot]; exact h1
  · rw [hnt]; exact h2
  · rw [hbk]; exact h3
  · intro c hc
    rw [hcc] at hc
    rw [hcv]
    exact h4 c hc

theorem stInv_stepToc (s : ParseState) (line : String) (h : stInv s) :
    stInv (stepToc s line) := by
  unfold stepToc
  cases is_book_line line with
  | none => exact h
  | some p =>
    obtain ⟨nm, t⟩ := p
    dsimp only
    split_ifs <;>
      exact stInv_of_fields (tocPush_ot s nm) (tocPush_nt s nm) rfl rfl rfl h

theorem stInv_stepLine (s : ParseState) (line : String) (h : stInv s) :
    stInv (stepLine s line) := by
  unfold stepLine
  split_ifs <;> first
    | exact h
    | exact ⟨h.1, h.2.1, h.2.2.1, h.2.2.2⟩
    | exact stInv_stepToc s line h
    | exact stInv_stepContent s line h

theorem stInv_step (s : ParseState) (raw : String) (h : stInv s) :
    stInv (step s raw) := stInv_stepLine s (trimS raw) h

theorem stInv_foldl (ls : List String) (s : ParseState) (h : stInv s) :
    stInv (ls.foldl step s) := by
  induction ls generalizing s with
  | nil => exact h
  | cons l ls ih => exact ih _ (stInv_step s l h)

/-- C7 amended: in the Document returned for any input, every sealed
Chapter contains at least one Verse.  (The other two conjuncts of the
original claim fail: sealed Verses can have empty text and sealed Books
can have zero chapters — see the counterexample.) -/
theorem c7_chapters_nonempty (txt : String) (b : Book)
    (hmem : b ∈ (parse_gutenberg txt).ot ∨ b ∈ (parse_gutenberg txt).nt) :
    ∀ c ∈ b.chapters, c.verses ≠ [] := by
  have hInv := stInv_foldl (splitLines txt) initState stInv_init
  have hfin := flushAll_inv _ hInv
  cases hmem with
  | inl hm => exact hfin.1 b hm
  | inr hm => exact hfin.2 b hm

def c7Book : Book := ⟨"Ezra", [⟨"1", [⟨"1", ""⟩, ⟨"2", "x"⟩]⟩]⟩

theorem c7_witness :
    (c7Book ∈ (parse_gutenberg cex7).ot ∨ c7Book ∈ (parse_gutenberg cex7).nt) ∧
    (∀ c ∈ c7Book.chapters, c.verses ≠ []) :=
  ⟨Or.inl (by decide),
   c7_chapters_nonempty cex7 c7Book (Or.inl (by decide))⟩

/-! ## C1 amended: the TOC pre-pass gates body parsing -/

/-- TOC-phase invariant: the pre-pass is marked complete only with
exactly 39 + 27 collected entries, the content section is entered only
after completion, and before entering it nothing has been emitted and no
book is open. -/
def tocInv (s : ParseState) : Prop :=
  (s.toc_complete = true →
     s.bible.ot_contents.length = 39 ∧ s.bible.nt_contents.length = 27) ∧
  (s.in_content = true → s.toc_complete = true) ∧
  (s.in_content = false →
     s.bible.ot = [] ∧ s.bible.nt = [] ∧ s.current_book = none)

theorem tocInv_init : tocInv initState := by
  refine ⟨?_, ?_, ?_⟩ <;> simp [initState]

/-- The fields `stepContent` never touches (TOC bookkeeping). -/
def tocFieldsEq (t s : ParseState) : Prop :=
  t.toc_complete = s.toc_complete ∧
  t.in_content = s.in_content ∧
  t.bible.ot_contents = s.bible.ot_contents ∧
  t.bible.nt_contents = s.bible.nt_contents

theorem stepHeader_toc_fields (s : ParseState) (nm : String) (t : Bool) :
    tocFieldsEq (stepHeader s nm t) s := by
  unfold stepHeader
  split_ifs <;> exact ⟨rfl, rfl, rfl, rfl⟩

theorem applyRef_toc_fields (s : ParseState) (words : List String) (i : Nat)
    (chN vN : String) : tocFieldsEq (applyRef s words i chN vN) s := by
  unfold applyRef
  split_ifs <;> exact ⟨rfl, rfl, rfl, rfl⟩

theorem appendContinuation_toc_fields (s : ParseState) (line : String) :
    tocFieldsEq (appendContinuation s line) s := by
  unfold appendContinuation
  cases s.current_verse with
  | some v => exact ⟨rfl, rfl, rfl, rfl⟩
  | none => exact ⟨rfl, rfl, rfl, rfl⟩

theorem stepBody_toc_fields (s : ParseState) (line : String) :
    tocFieldsEq (stepBody s line) s := by
  unfold stepBody
  cases findRef 0 (splitWsS line) with
  | some p =>
    obtain ⟨i, chN, vN⟩ := p
    exact applyRef_toc_fields { s with last_line_was_book := false } (splitWsS line) i chN vN
  | none => exact appendContinuation_toc_fields { s with last_line_was_book := false } line

/-- Body-section processing never touches the TOC bookkeeping fields. -/
theorem stepContent_toc_fields (s : ParseState) (line : String) :
    tocFieldsEq (stepContent s line) s := by
  unfold stepContent
  cases is_book_line line with
  | some p =>
    obtain ⟨nm, t⟩ := p
    exact stepHeader_toc_fields s nm t
  | none => exact stepBody_toc_fields s line

theorem tocInv_stepToc (s : ParseState) (line : String)
    (hnc : s.toc_complete = false) (h : tocInv s) : tocInv (stepToc s line) := by
  obtain ⟨p1, p2, p3⟩ := h
  have hic : s.in_content = false := by
    cases hx : s.in_content
    · rfl
    · rw [p2 hx] at hnc; exact Bool.noConfusion hnc
  unfold stepToc
  cases is_book_line line with
  | none => exact ⟨p1, p2, p3⟩
  | some p =>
    obtain ⟨nm, t⟩ := p
    dsimp only
    by_cases hlen : (tocPush s nm).ot_contents.length = 39 ∧
        (tocPush s nm).nt_contents.length = 27
    · rw [if_pos hlen]
      refine ⟨fun _ => hlen, fun _ => rfl, fun _ => ?_⟩
      · refine ⟨?_, ?_, (p3 hic).2.2⟩
        · show (tocPush s nm).ot = []
          rw [tocPush_ot]
          exact (p3 hic).1
        · show (tocPush s nm).nt = []
          rw [tocPush_nt]
          exact (p3 hic).2.1
    · rw [if_neg hlen]
      refine ⟨fun hc => ?_, fun hc => ?_, fun _ => ?_⟩
      · have hx : s.toc_complete = true := hc
        rw [hnc] at hx
        exact Bool.noConfusion hx
      · rw [hic] at hc
        exact Bool.noConfusion hc
      · refine ⟨?_, ?_, (p3 hic).2.2⟩
        · show (tocPush s nm).ot = []
          rw [tocPush_ot]
          exact (p3 hic).1
        · show (tocPush s nm).nt = []
          rw [tocPush_nt]
          exact (p3 hic).2.1

theorem tocInv_stepLine (s : ParseState) (line : String) (h : tocInv s) :
    tocInv (stepLine s line) := by
  obtain ⟨p1, p2, p3⟩ := h
  unfold stepLine
  by_cases hempty : line = ""
  · rw [if_pos hempty]; exact ⟨p1, p2, p3⟩
  rw [if_neg hempty]
  by_cases hbib : s.in_bible = false
  · rw [if_pos hbib]
    by_cases hst : containsSubS line startMarker = true
    · rw [if_pos hst]; exact ⟨p1, p2, p3⟩
    · rw [if_neg hst]; exact ⟨p1, p2, p3⟩
  rw [if_neg hbib]
  by_cases h3 : s.in_toc = false ∧ s.in_content = false ∧ containsSubS line otMarker = true
  · rw [if_pos h3]; exact ⟨p1, p2, p3⟩
  rw [if_neg h3]
  by_cases h4 : s.in_toc = true ∧ containsSubS line ntMarker = true
  · rw [if_pos h4]; exact ⟨p1, p2, p3⟩
  rw [if_neg h4]
  by_cases h5 : s.in_toc = true ∧ s.toc_complete = false
  · rw [if_pos h5]
    exact tocInv_stepToc s line h5.2 ⟨p1, p2, p3⟩
  rw [if_neg h5]
  by_cases h6 : s.toc_complete = true ∧ s.in_content = false
  · rw [if_pos h6]
    by_cases h7 : containsSubS line otMarker = true
    · rw [if_pos h7]
      exact ⟨fun hc => p1 hc, fun _ => h6.1, fun hf => Bool.noConfusion hf⟩
    · rw [if_neg h7]; exact ⟨p1, p2, p3⟩
  rw [if_neg h6]
  by_cases h8 : s.in_content = false
  · rw [if_pos h8]; exact ⟨p1, p2, p3⟩
  rw [if_neg h8]
  have hic : s.in_content = true := by
    cases hx : s.in_content
    · exact absurd hx h8
    · rfl
  obtain ⟨q1, q2, q3, q4⟩ := stepContent_toc_fields s line
  refine ⟨fun hc => ?_, fun _ => ?_, fun hf => ?_⟩
  · rw [q1] at hc
    rw [q3, q4]
    exact p1 hc
  · rw [q1]
    exact p2 hic
  · rw [q2, hic] at hf
    exact Bool.noConfusion hf

theorem tocInv_step (s : ParseState) (raw : String) (h : tocInv s) :
    tocInv (step s raw) := tocInv_stepLine s (trimS raw) h

theorem tocInv_foldl (ls : List String) (s : ParseState) (h : tocInv s) :
    tocInv (ls.foldl step s) := by
  induction ls generalizing s with
  | nil => exact h
  | cons l ls ih => exact ih _ (tocInv_step s l h)

/-- C1 amended: the TOC pre-pass gates the body parse.  Whenever the
returned Document's TOC lists do not hold exactly 39 OT and 27 NT
entries — in particular whenever fewer were collected before the body
begins — no body line was ever parsed: both testament book collections
are empty.  The emitted Books, Chapters and Verses therefore do depend on
the table of contents having been found and completed. -/
theorem c1_toc_gates_body (txt : String)
    (h : (parse_gutenberg txt).ot_contents.length ≠ 39 ∨
         (parse_gutenberg txt).nt_contents.length ≠ 27) :
    (parse_gutenberg txt).ot = [] ∧ (parse_gutenberg txt).nt = [] := by
  obtain ⟨p1, p2, p3⟩ := tocInv_foldl (splitLines txt) initState tocInv_init
  have hnc : ((splitLines txt).foldl step initState).toc_complete = false := by
    cases hx : ((splitLines txt).foldl step initState).toc_complete
    · rfl
    · exfalso
      have hpair := p1 hx
      cases h with
      | inl hh => exact hh hpair.1
      | inr hh => exact hh hpair.2
  have hic : ((splitLines txt).foldl step initState).in_content = false := by
    cases hx : ((splitLines txt).foldl step initState).in_content
    · rfl
    · rw [p2 hx] at hnc
      exact Bool.noConfusion hnc
  obtain ⟨hot, hnt, hbk⟩ := p3 hic
  have hfin := finish_no_book ((splitLines txt).foldl step initState) hbk
  exact ⟨hfin.1.trans hot, hfin.2.trans hnt⟩

theorem c1_witness :
    ((parse_gutenberg cex1a).ot_contents.length ≠ 39 ∨
     (parse_gutenberg cex1a).nt_contents.length ≠ 27) ∧
    ((parse_gutenberg cex1a).ot = [] ∧ (parse_gutenberg cex1a).nt = []) :=
  ⟨Or.inl (by decide), c1_toc_gates_body cex1a (Or.inl (by decide))⟩

end KJV
